import Mathlib

/-!
Shallow embedding of the nym-bazaar core: the marketplace command dispatcher
(`BazaarServer::handle_command` in src/server/src/main.rs) over its in-memory
catalog, and the stress-test harness statistics loop
(src/stress-test/src/main.rs).

Strings are modelled by Lean `String`; Rust's per-request byte handling,
sockets and the mixnet transport are outside the embedded core.  Rust's
Unicode case mapping (`to_lowercase`/`to_uppercase`) is modelled by the
ASCII-range `Char.toLower`/`Char.toUpper`, which agrees with Rust on every
string the protocol and catalog use.
-/

namespace NymBazaar

/-- Mirrors `struct Item` in src/server/src/main.rs. -/
structure Item where
  id : String
  name : String
  category : String
  description : String
  price : String
  seller : String
deriving DecidableEq, Repr

/-- The catalog `HashMap<String, Item>` is modelled as an association list
with unique keys; `values()` iteration order is unspecified in Rust, here it
is the list order. -/
abbrev Catalog := List (String × Item)

/-- Rust `String::to_lowercase`, per character (ASCII-range model). -/
def lowerStr (s : String) : String := String.mk (s.data.map Char.toLower)

/-- Rust `String::to_uppercase`, per character (ASCII-range model). -/
def upperStr (s : String) : String := String.mk (s.data.map Char.toUpper)

/-- Rust `str::trim` on the character list: strip leading and trailing
whitespace. -/
def trimChars (s : List Char) : List Char :=
  ((s.dropWhile Char.isWhitespace).reverse.dropWhile Char.isWhitespace).reverse

/-- Rust `str::trim` at the string level. -/
def strTrim (s : String) : String := String.mk (trimChars s.data)

/-- Helper for `split_whitespace`: accumulate the current word (reversed)
and emit words at whitespace boundaries. -/
def wordsAux : List Char → List Char → List String
  | [], acc => if acc.isEmpty then [] else [String.mk acc.reverse]
  | c :: rest, acc =>
    if c.isWhitespace then
      if acc.isEmpty then wordsAux rest []
      else String.mk acc.reverse :: wordsAux rest []
    else wordsAux rest (c :: acc)

/-- Rust `command.trim().split_whitespace().collect()`: the list of
whitespace-separated tokens of the raw command line. -/
def tokenize (command : String) : List String :=
  wordsAux (trimChars command.data) []

/-- Does `s` start with `pat` (on character lists)? -/
def charsStartWith : List Char → List Char → Bool
  | _, [] => true
  | [], _ :: _ => false
  | a :: as, b :: bs => a == b && charsStartWith as bs

/-- Does `s` contain `pat` as a contiguous subsequence (on character
lists)?  Mirrors Rust `str::contains` for string patterns. -/
def charsContain : List Char → List Char → Bool
  | [], pat => pat.isEmpty
  | a :: as, pat => charsStartWith (a :: as) pat || charsContain as pat

/-- Rust `str::contains` at the string level. -/
def strContains (s pat : String) : Bool := charsContain s.data pat.data

/-- `items.values()`: the catalog's items, keys forgotten. -/
def catalogValues (items : Catalog) : List Item := items.map Prod.snd

/-- `items.get(id)`: exact key lookup in the catalog. -/
def catalogGet (items : Catalog) (id : String) : Option Item :=
  (items.find? (fun e => e.1 == id)).map Prod.snd

/-- One listing line, `format!("{}. {} - {}\n", item.id, item.name,
item.price)`. -/
def itemLine (item : Item) : String :=
  item.id ++ ". " ++ item.name ++ " - " ++ item.price ++ "\n"

/-- The LIST branch's filter: keep the items whose lowercased category
equals the (already lowercased) filter, or all items when no filter is
given. -/
def listSelected (items : List Item) (categoryFilter : Option String) : List Item :=
  items.filter (fun item =>
    match categoryFilter with
    | some cat => lowerStr item.category == cat
    | none => true)

/-- The LIST branch of `handle_command` (src/server/src/main.rs lines
59–84), given `items.values()` and the lowercased optional category
filter. -/
def listResponse (items : List Item) (categoryFilter : Option String) : String :=
  let filtered := listSelected items categoryFilter
  if filtered.isEmpty then "No items found\n"
  else String.join (filtered.map itemLine)

/-- The GET branch of `handle_command` (lines 86–98). -/
def getResponse (items : Catalog) (id : String) : String :=
  match catalogGet items id with
  | some item =>
      "ID: " ++ item.id ++ "\nName: " ++ item.name ++ "\nCategory: " ++
        item.category ++ "\nPrice: " ++ item.price ++ "\nSeller: " ++
        item.seller ++ "\n\n" ++ item.description ++ "\n"
  | none => "Item with ID " ++ id ++ " not found\n"

/-- The SEARCH branch's predicate: case-insensitive substring match against
name, description and category (OR semantics); `term` is already
lowercased by the dispatcher. -/
def searchMatch (term : String) (item : Item) : Bool :=
  strContains (lowerStr item.name) term ||
  strContains (lowerStr item.description) term ||
  strContains (lowerStr item.category) term

/-- The SEARCH branch of `handle_command` (lines 100–123), given
`items.values()` and the lowercased term. -/
def searchResponse (items : List Item) (term : String) : String :=
  let results := items.filter (searchMatch term)
  if results.isEmpty then "No items found matching your search\n"
  else String.join (results.map itemLine)

/-- The CATEGORIES branch's `HashSet`: the distinct categories, modelled by
`dedup` (iteration order of the Rust `HashSet` is unspecified). -/
def categorySet (items : List Item) : List String :=
  (items.map (fun item => item.category)).dedup

/-- The CATEGORIES branch of `handle_command` (lines 125–139). -/
def categoriesResponse (items : List Item) : String :=
  "Available categories:\n" ++
    String.join ((categorySet items).map (fun c => "- " ++ c ++ "\n"))

/-- The `_` branch of `handle_command`: the fixed help text. -/
def helpText : String :=
  "Invalid command. Available commands:\nHEAD\nLIST [category]\nGET <id>\nSEARCH <term>\nCATEGORIES\n"

/-- `handle_command`, state-passing form: the catalog is threaded through
explicitly; every branch only reads it (`self.items.read()`), which the
returned first component records. -/
def handleCommandS (items : Catalog) (command : String) : Catalog × String :=
  match ((tokenize command)[0]?).map upperStr with
  | some "HEAD" => (items, "OK\n")
  | some "LIST" =>
      (items, listResponse (catalogValues items) (((tokenize command)[1]?).map lowerStr))
  | some "GET" =>
      match (tokenize command)[1]? with
      | some id => (items, getResponse items id)
      | none => (items, helpText)
  | some "SEARCH" =>
      match (tokenize command)[1]? with
      | some t => (items, searchResponse (catalogValues items) (lowerStr t))
      | none => (items, helpText)
  | some "CATEGORIES" => (items, categoriesResponse (catalogValues items))
  | _ => (items, helpText)

/-- `handle_command`'s response string. -/
def handleCommand (items : Catalog) (command : String) : String :=
  (handleCommandS items command).2

/-- First sample item inserted by `BazaarServer::new` (lines 28–35). -/
def nesItem : Item :=
  { id := "1", name := "Nintendo NES", category := "gaming",
    description := "Original Nintendo Entertainment System from 1985. Good condition with controllers.",
    price := "$150", seller := "RetroGamer" }

/-- Second sample item inserted by `BazaarServer::new` (lines 37–44). -/
def dx7Item : Item :=
  { id := "2", name := "Yamaha DX7", category := "synthesizer",
    description := "Classic FM synthesizer from 1983. The quintessential 80s synth sound.",
    price := "$800", seller := "SynthWave" }

/-- The catalog built by `BazaarServer::new` at startup. -/
def initialItems : Catalog := [("1", nesItem), ("2", dx7Item)]

/-- Mirrors `struct Stats` in src/stress-test/src/main.rs. -/
structure Stats where
  requests_sent : Nat
  requests_succeeded : Nat
  requests_failed : Nat
  total_time_ns : Nat
deriving DecidableEq, Repr

/-- The zero-initialised `Stats` the harness starts from. -/
def initialStats : Stats :=
  { requests_sent := 0, requests_succeeded := 0, requests_failed := 0,
    total_time_ns := 0 }

/-- One request's externally determined outcome, abstracting the socket:
the connect may fail, the write may fail, the read may fail or return zero
bytes, or a reply arrives after `elapsedNs` nanoseconds open-to-reply. -/
inductive RequestOutcome where
  | connectFailed
  | writeFailed
  | readFailedOrEmpty
  | replied (response : String) (elapsedNs : Nat)
deriving DecidableEq, Repr

/-- The worker's success test: `response.trim() == "OK"`. -/
def classifySuccess (response : String) : Bool := strTrim response == "OK"

/-- One iteration of the worker loop (src/stress-test/src/main.rs lines
68–101): increment `requests_sent`, then exactly one of
`requests_succeeded`/`requests_failed` according to the outcome, adding the
open-to-reply latency only on success. -/
def recordRequest (stats : Stats) (outcome : RequestOutcome) : Stats :=
  let stats := { stats with requests_sent := stats.requests_sent + 1 }
  match outcome with
  | .connectFailed => { stats with requests_failed := stats.requests_failed + 1 }
  | .writeFailed => { stats with requests_failed := stats.requests_failed + 1 }
  | .readFailedOrEmpty => { stats with requests_failed := stats.requests_failed + 1 }
  | .replied response elapsedNs =>
      if classifySuccess response then
        { stats with requests_succeeded := stats.requests_succeeded + 1,
                     total_time_ns := stats.total_time_ns + elapsedNs }
      else
        { stats with requests_failed := stats.requests_failed + 1 }

/-- One worker's whole loop over its share of requests. -/
def runWorker (stats : Stats) (outcomes : List RequestOutcome) : Stats :=
  outcomes.foldl recordRequest stats

/-- `total_requests / concurrency`, each worker's share (integer
division). -/
def requestsPerWorker (totalRequests concurrency : Nat) : Nat :=
  totalRequests / concurrency

/-- The final statistics after every worker completes.  The atomic
increments commute, so the final counter values equal those of a sequential
fold over the workers' outcome lists. -/
def runHarness (workerOutcomes : List (List RequestOutcome)) : Stats :=
  workerOutcomes.foldl runWorker initialStats

end NymBazaar

namespace NymBazaar

/-! ### Basic string lemmas -/

theorem strData_append (a b : String) : (a ++ b).data = a.data ++ b.data := by
  cases a; cases b; rfl

theorem strExt (a b : String) (h : a.data = b.data) : a = b :=
  congrArg String.mk h

theorem strLength_append (a b : String) : (a ++ b).length = a.length + b.length := by
  show (a ++ b).data.length = a.data.length + b.data.length
  rw [strData_append, List.length_append]

theorem strNeEmpty_of_pos (s : String) (h : 0 < s.length) : s ≠ "" := by
  intro he
  subst he
  simp [String.length] at h

theorem foldl_append_length (l : List String) (acc : String) :
    acc.length ≤ (l.foldl (fun a b => a ++ b) acc).length := by
  induction l generalizing acc with
  | nil => simp
  | cons hd tl ih =>
      calc acc.length ≤ (acc ++ hd).length := by rw [strLength_append]; omega
        _ ≤ _ := ih (acc ++ hd)

theorem join_cons_length (s : String) (l : List String) :
    s.length ≤ (String.join (s :: l)).length := by
  show s.length ≤ ((s :: l).foldl (fun a b => a ++ b) "").length
  have h : ("" ++ s : String) = s := rfl
  calc s.length = ("" ++ s : String).length := by rw [h]
    _ ≤ _ := foldl_append_length l ("" ++ s)

theorem itemLine_length_pos (item : Item) : 0 < (itemLine item).length := by
  unfold itemLine
  rw [strLength_append]
  have h : ("\n" : String).length = 1 := rfl
  omega

/-! ### Substring lemmas for `charsStartWith` / `charsContain` -/

theorem charsStartWith_nil (s : List Char) : charsStartWith s [] = true := by
  cases s <;> rfl

theorem charsStartWith_append (pat r : List Char) :
    charsStartWith (pat ++ r) pat = true := by
  induction pat with
  | nil => exact charsStartWith_nil r
  | cons c cs ih => simp [charsStartWith, ih]

theorem charsContain_nil_pat (s : List Char) : charsContain s [] = true := by
  cases s with
  | nil => rfl
  | cons a as => simp [charsContain, charsStartWith_nil]

theorem charsContain_parts (l pat r : List Char) :
    charsContain (l ++ pat ++ r) pat = true := by
  induction l with
  | nil =>
      cases pat with
      | nil => simpa using charsContain_nil_pat r
      | cons c cs =>
          simp only [List.nil_append]
          show (charsStartWith ((c :: cs) ++ r) (c :: cs) || _) = true
          rw [charsStartWith_append]
          rfl
  | cons a as ih =>
      show (charsStartWith _ pat || charsContain (as ++ pat ++ r) pat) = true
      rw [ih, Bool.or_true]

theorem strContains_of_split (s a pat b : String) (h : s = a ++ pat ++ b) :
    strContains s pat = true := by
  subst h
  unfold strContains
  rw [strData_append, strData_append]
  exact charsContain_parts a.data pat.data b.data

theorem charsStartWith_of_split (s pre r : String) (h : s = pre ++ r) :
    charsStartWith s.data pre.data = true := by
  subst h
  rw [strData_append]
  exact charsStartWith_append pre.data r.data

end NymBazaar

namespace NymBazaar

/-! ### Response shape and dispatcher lemmas -/

theorem strLength_append_right_pos (a b : String) (h : 0 < b.length) :
    0 < (a ++ b).length := by
  rw [strLength_append]; omega

theorem strLength_append_left_pos (a b : String) (h : 0 < a.length) :
    0 < (a ++ b).length := by
  rw [strLength_append]; omega

theorem join_lines_ne_empty (hd : Item) (tl : List Item) :
    String.join (itemLine hd :: tl.map itemLine) ≠ "" := by
  apply strNeEmpty_of_pos
  exact lt_of_lt_of_le (itemLine_length_pos hd) (join_cons_length _ _)

theorem listResponse_ne_empty (items : List Item) (filt : Option String) :
    listResponse items filt ≠ "" := by
  unfold listResponse
  cases h : listSelected items filt with
  | nil => simp [h]
  | cons hd tl =>
      simp only [h, List.isEmpty_cons, List.map_cons]
      exact join_lines_ne_empty hd tl

theorem searchResponse_ne_empty (items : List Item) (term : String) :
    searchResponse items term ≠ "" := by
  unfold searchResponse
  cases h : items.filter (searchMatch term) with
  | nil => simp [h]
  | cons hd tl =>
      simp only [h, List.isEmpty_cons, List.map_cons]
      exact join_lines_ne_empty hd tl

theorem categoriesResponse_ne_empty (items : List Item) :
    categoriesResponse items ≠ "" := by
  apply strNeEmpty_of_pos
  apply strLength_append_left_pos
  decide

theorem getResponse_ne_empty (items : Catalog) (id : String) :
    getResponse items id ≠ "" := by
  unfold getResponse
  cases h : catalogGet items id with
  | some item =>
      apply strNeEmpty_of_pos
      apply strLength_append_right_pos
      decide
  | none =>
      apply strNeEmpty_of_pos
      apply strLength_append_right_pos
      decide

theorem handleCommandS_fst (items : Catalog) (command : String) :
    (handleCommandS items command).1 = items := by
  unfold handleCommandS
  split <;> first | rfl | (split <;> rfl)

theorem handleCommand_noTokens (items : Catalog) (command : String)
    (h : tokenize command = []) : handleCommand items command = helpText := by
  unfold handleCommand handleCommandS
  rw [h]
  exact rfl

theorem handleCommand_unknown (items : Catalog) (command tok : String) (rest : List String)
    (h : tokenize command = tok :: rest)
    (h1 : upperStr tok ≠ "HEAD") (h2 : upperStr tok ≠ "LIST")
    (h3 : upperStr tok ≠ "GET") (h4 : upperStr tok ≠ "SEARCH")
    (h5 : upperStr tok ≠ "CATEGORIES") :
    handleCommand items command = helpText := by
  unfold handleCommand handleCommandS
  rw [h]
  simp only [List.getElem?_cons_zero, Option.map_some']
  split <;> simp_all

theorem handleCommand_get_missing (items : Catalog) (command tok : String)
    (h : tokenize command = [tok]) (hu : upperStr tok = "GET") :
    handleCommand items command = helpText := by
  unfold handleCommand handleCommandS
  rw [h]
  simp [hu]

theorem handleCommand_search_missing (items : Catalog) (command tok : String)
    (h : tokenize command = [tok]) (hu : upperStr tok = "SEARCH") :
    handleCommand items command = helpText := by
  unfold handleCommand handleCommandS
  rw [h]
  simp [hu]

theorem handleCommand_get_arg (items : Catalog) (command tok a : String) (rest : List String)
    (h : tokenize command = tok :: a :: rest) (hu : upperStr tok = "GET") :
    handleCommand items command = getResponse items a := by
  unfold handleCommand handleCommandS
  rw [h]
  simp [hu]

theorem handleCommand_search_arg (items : Catalog) (command tok a : String) (rest : List String)
    (h : tokenize command = tok :: a :: rest) (hu : upperStr tok = "SEARCH") :
    handleCommand items command = searchResponse (catalogValues items) (lowerStr a) := by
  unfold handleCommand handleCommandS
  rw [h]
  simp [hu]

theorem handleCommand_ne_empty (items : Catalog) (command : String) :
    handleCommand items command ≠ "" := by
  unfold handleCommand handleCommandS
  split
  · show ("OK\n" : String) ≠ ""
    decide
  · exact listResponse_ne_empty _ _
  · split
    · exact getResponse_ne_empty _ _
    · show helpText ≠ ""
      decide
  · split
    · exact searchResponse_ne_empty _ _
    · show helpText ≠ ""
      decide
  · exact categoriesResponse_ne_empty _
  · show helpText ≠ ""
    decide

end NymBazaar

namespace NymBazaar

/-! ### Stress-harness lemmas -/

theorem recordRequest_sent (stats : Stats) (o : RequestOutcome) :
    (recordRequest stats o).requests_sent = stats.requests_sent + 1 := by
  cases o with
  | connectFailed => rfl
  | writeFailed => rfl
  | readFailedOrEmpty => rfl
  | replied response elapsedNs =>
      simp only [recordRequest]
      split <;> rfl

theorem recordRequest_sf (stats : Stats) (o : RequestOutcome) :
    (recordRequest stats o).requests_succeeded + (recordRequest stats o).requests_failed =
      stats.requests_succeeded + stats.requests_failed + 1 := by
  cases o <;> simp only [recordRequest] <;> (try split) <;> (try simp) <;> omega

theorem runWorker_sent (stats : Stats) (outcomes : List RequestOutcome) :
    (runWorker stats outcomes).requests_sent = stats.requests_sent + outcomes.length := by
  induction outcomes generalizing stats with
  | nil => simp [runWorker]
  | cons hd tl ih =>
      show (runWorker (recordRequest stats hd) tl).requests_sent = _
      rw [ih, recordRequest_sent]
      simp
      omega

theorem runWorker_sf (stats : Stats) (outcomes : List RequestOutcome) :
    (runWorker stats outcomes).requests_succeeded + (runWorker stats outcomes).requests_failed =
      stats.requests_succeeded + stats.requests_failed + outcomes.length := by
  induction outcomes generalizing stats with
  | nil => simp [runWorker]
  | cons hd tl ih =>
      show (runWorker (recordRequest stats hd) tl).requests_succeeded +
        (runWorker (recordRequest stats hd) tl).requests_failed = _
      rw [ih, recordRequest_sf]
      simp
      omega

theorem foldl_runWorker_sent (workerOutcomes : List (List RequestOutcome)) (stats : Stats) :
    (workerOutcomes.foldl runWorker stats).requests_sent =
      stats.requests_sent + (workerOutcomes.map List.length).sum := by
  induction workerOutcomes generalizing stats with
  | nil => simp
  | cons hd tl ih =>
      show ((tl.foldl runWorker (runWorker stats hd))).requests_sent = _
      rw [ih, runWorker_sent]
      simp
      omega

theorem foldl_runWorker_sf (workerOutcomes : List (List RequestOutcome)) (stats : Stats) :
    (workerOutcomes.foldl runWorker stats).requests_succeeded +
        (workerOutcomes.foldl runWorker stats).requests_failed =
      stats.requests_succeeded + stats.requests_failed + (workerOutcomes.map List.length).sum := by
  induction workerOutcomes generalizing stats with
  | nil => simp
  | cons hd tl ih =>
      show ((tl.foldl runWorker (runWorker stats hd))).requests_succeeded +
        ((tl.foldl runWorker (runWorker stats hd))).requests_failed = _
      rw [ih, runWorker_sf]
      simp
      omega

end NymBazaar

namespace NymBazaar

/-! ### Claim theorems -/

/-- C1 (counterexample): with the one-item catalog holding only the NES item
(category "gaming"), `LIST gaming` selects the same, nonempty, result as an
unfiltered `LIST` — the filtered result is not a strict subset of the
unfiltered one; and on the empty catalog the unfiltered `LIST` answers
"No items found\n", a line with no corresponding catalog item. -/
theorem c1_counterexample :
    listSelected (catalogValues [("1", nesItem)]) (some (lowerStr "gaming")) =
      listSelected (catalogValues [("1", nesItem)]) none ∧
    listSelected (catalogValues [("1", nesItem)]) (some (lowerStr "gaming")) ≠ [] ∧
    handleCommand [("1", nesItem)] "LIST gaming" = handleCommand [("1", nesItem)] "LIST" ∧
    handleCommand ([] : Catalog) "LIST" = "No items found\n" := by
  refine ⟨?_, ?_, ?_, ?_⟩ <;> decide

/-- C1 (amended): an unfiltered `List` over a nonempty catalog answers
exactly one line per item, in the `"<id>. <name> - <price>"` format; a
category-filtered `List` is a (not necessarily strict) sub-multiset of the
unfiltered result, every selected item's category equal to the filter
case-insensitively; an empty selection answers exactly "No items found\n";
and no `List` response is ever the empty string. -/
theorem c1_amended_list (items : Catalog) (c : String) :
    (catalogValues items ≠ [] →
      listResponse (catalogValues items) none =
        String.join ((catalogValues items).map itemLine)) ∧
    listSelected (catalogValues items) none = catalogValues items ∧
    List.Sublist (listSelected (catalogValues items) (some (lowerStr c)))
      (catalogValues items) ∧
    List.Sublist ((listSelected (catalogValues items) (some (lowerStr c))).map itemLine)
      ((catalogValues items).map itemLine) ∧
    (∀ it, it ∈ listSelected (catalogValues items) (some (lowerStr c)) →
      lowerStr it.category = lowerStr c) ∧
    (listSelected (catalogValues items) (some (lowerStr c)) = [] →
      listResponse (catalogValues items) (some (lowerStr c)) = "No items found\n") ∧
    (∀ filt : Option String, listResponse (catalogValues items) filt ≠ "") := by
  have hsel : listSelected (catalogValues items) none = catalogValues items := by
    simp [listSelected]
  refine ⟨?_, hsel, ?_, ?_, ?_, ?_, ?_⟩
  · intro h
    simp [listResponse, hsel, List.isEmpty_iff, h]
  · exact List.filter_sublist _
  · exact (List.filter_sublist _).map itemLine
  · intro it hit
    have := (List.mem_filter.mp hit).2
    simpa using this
  · intro h
    simp [listResponse, h]
  · intro filt
    exact listResponse_ne_empty _ _

/-- C1 witness. -/
theorem c1_witness :
    listResponse (catalogValues initialItems) none =
      String.join ((catalogValues initialItems).map itemLine) ∧
    listResponse (catalogValues initialItems) (some (lowerStr "books")) = "No items found\n" :=
  ⟨(c1_amended_list initialItems "gaming").1 (by decide),
   (c1_amended_list initialItems "books").2.2.2.2.2.1 (by decide)⟩

end NymBazaar

namespace NymBazaar

/-- C2: for every catalog and id, a `Get` hit returns the multi-line record
built from the stored item — containing the item's id and its five
attributes (name, category, price, seller, description) verbatim as
substrings — and a miss returns exactly
`"Item with ID <id> not found\n"`; both cases are ordinary strings, never
an error. -/
theorem c2_get_record (items : Catalog) (id : String) :
    (∀ item, catalogGet items id = some item →
      getResponse items id =
        "ID: " ++ item.id ++ "\nName: " ++ item.name ++ "\nCategory: " ++
          item.category ++ "\nPrice: " ++ item.price ++ "\nSeller: " ++
          item.seller ++ "\n\n" ++ item.description ++ "\n" ∧
      strContains (getResponse items id) item.id = true ∧
      strContains (getResponse items id) item.name = true ∧
      strContains (getResponse items id) item.category = true ∧
      strContains (getResponse items id) item.price = true ∧
      strContains (getResponse items id) item.seller = true ∧
      strContains (getResponse items id) item.description = true) ∧
    (catalogGet items id = none →
      getResponse items id = "Item with ID " ++ id ++ " not found\n") := by
  constructor
  · intro item h
    have hresp : getResponse items id =
        "ID: " ++ item.id ++ "\nName: " ++ item.name ++ "\nCategory: " ++
          item.category ++ "\nPrice: " ++ item.price ++ "\nSeller: " ++
          item.seller ++ "\n\n" ++ item.description ++ "\n" := by
      unfold getResponse
      rw [h]
    refine ⟨hresp, ?_, ?_, ?_, ?_, ?_, ?_⟩
    · apply strContains_of_split _ "ID: " _
        ("\nName: " ++ item.name ++ "\nCategory: " ++ item.category ++ "\nPrice: " ++
          item.price ++ "\nSeller: " ++ item.seller ++ "\n\n" ++ item.description ++ "\n")
      rw [hresp]
      apply strExt
      simp [strData_append, List.append_assoc]
    · apply strContains_of_split _ ("ID: " ++ item.id ++ "\nName: ") _
        ("\nCategory: " ++ item.category ++ "\nPrice: " ++ item.price ++ "\nSeller: " ++
          item.seller ++ "\n\n" ++ item.description ++ "\n")
      rw [hresp]
      apply strExt
      simp [strData_append, List.append_assoc]
    · apply strContains_of_split _
        ("ID: " ++ item.id ++ "\nName: " ++ item.name ++ "\nCategory: ") _
        ("\nPrice: " ++ item.price ++ "\nSeller: " ++ item.seller ++ "\n\n" ++
          item.description ++ "\n")
      rw [hresp]
      apply strExt
      simp [strData_append, List.append_assoc]
    · apply strContains_of_split _
        ("ID: " ++ item.id ++ "\nName: " ++ item.name ++ "\nCategory: " ++
          item.category ++ "\nPrice: ") _
        ("\nSeller: " ++ item.seller ++ "\n\n" ++ item.description ++ "\n")
      rw [hresp]
      apply strExt
      simp [strData_append, List.append_assoc]
    · apply strContains_of_split _
        ("ID: " ++ item.id ++ "\nName: " ++ item.name ++ "\nCategory: " ++
          item.category ++ "\nPrice: " ++ item.price ++ "\nSeller: ") _
        ("\n\n" ++ item.description ++ "\n")
      rw [hresp]
      apply strExt
      simp [strData_append, List.append_assoc]
    · apply strContains_of_split _
        ("ID: " ++ item.id ++ "\nName: " ++ item.name ++ "\nCategory: " ++
          item.category ++ "\nPrice: " ++ item.price ++ "\nSeller: " ++
          item.seller ++ "\n\n") _ "\n"
      rw [hresp]
  · intro h
    unfold getResponse
    rw [h]

/-- C2 witness. -/
theorem c2_witness :
    strContains (getResponse initialItems "1") "Nintendo NES" = true ∧
    getResponse initialItems "3" = "Item with ID " ++ "3" ++ " not found\n" :=
  ⟨((c2_get_record initialItems "1").1 nesItem rfl).2.2.1,
   (c2_get_record initialItems "3").2 rfl⟩

/-- C3: every item selected by `Search(term)` is one of the cataloged items
(its listing line is among the unfiltered `List` lines), and it matches the
term case-insensitively in its name, its description, or its category (OR
semantics); the response uses the same listing format as `List`, and an
empty result answers exactly "No items found matching your search\n". -/
theorem c3_search_subset (items : Catalog) (term : String) :
    List.Sublist ((catalogValues items).filter (searchMatch (lowerStr term)))
      (catalogValues items) ∧
    List.Sublist (((catalogValues items).filter (searchMatch (lowerStr term))).map itemLine)
      ((catalogValues items).map itemLine) ∧
    (∀ it, it ∈ (catalogValues items).filter (searchMatch (lowerStr term)) →
      strContains (lowerStr it.name) (lowerStr term) = true ∨
      strContains (lowerStr it.description) (lowerStr term) = true ∨
      strContains (lowerStr it.category) (lowerStr term) = true) ∧
    (searchResponse (catalogValues items) (lowerStr term) =
      if ((catalogValues items).filter (searchMatch (lowerStr term))).isEmpty
      then "No items found matching your search\n"
      else String.join
        (((catalogValues items).filter (searchMatch (lowerStr term))).map itemLine)) ∧
    ((catalogValues items).filter (searchMatch (lowerStr term)) = [] →
      searchResponse (catalogValues items) (lowerStr term) =
        "No items found matching your search\n") := by
  refine ⟨List.filter_sublist _, (List.filter_sublist _).map itemLine, ?_, rfl, ?_⟩
  · intro it hit
    have hm := (List.mem_filter.mp hit).2
    simpa [searchMatch, Bool.or_eq_true, or_assoc] using hm
  · intro h
    simp [searchResponse, h]

/-- C3 witness. -/
theorem c3_witness :
    searchResponse (catalogValues initialItems) (lowerStr "zzz") =
      "No items found matching your search\n" :=
  (c3_search_subset initialItems "zzz").2.2.2.2 (by decide)

end NymBazaar

namespace NymBazaar

/-- C4: command handling is total — every raw input line yields a response
string; an empty line or an unrecognized first token (compared after
uppercasing, so case-insensitively) yields the fixed help text, as does a
GET or SEARCH token with no argument; when GET or SEARCH has several
argument tokens only the first is used. -/
theorem c4_parse_total (items : Catalog) (command : String) :
    (∃ response, handleCommand items command = response) ∧
    handleCommand items command ≠ "" ∧
    (tokenize command = [] → handleCommand items command = helpText) ∧
    (∀ tok rest, tokenize command = tok :: rest →
      upperStr tok ≠ "HEAD" → upperStr tok ≠ "LIST" → upperStr tok ≠ "GET" →
      upperStr tok ≠ "SEARCH" → upperStr tok ≠ "CATEGORIES" →
      handleCommand items command = helpText) ∧
    (∀ tok, tokenize command = [tok] →
      (upperStr tok = "GET" ∨ upperStr tok = "SEARCH") →
      handleCommand items command = helpText) ∧
    (∀ tok a rest, tokenize command = tok :: a :: rest →
      (upperStr tok = "GET" → handleCommand items command = getResponse items a) ∧
      (upperStr tok = "SEARCH" →
        handleCommand items command = searchResponse (catalogValues items) (lowerStr a))) := by
  refine ⟨⟨handleCommand items command, rfl⟩, handleCommand_ne_empty items command,
    handleCommand_noTokens items command, ?_, ?_, ?_⟩
  · intro tok rest h h1 h2 h3 h4 h5
    exact handleCommand_unknown items command tok rest h h1 h2 h3 h4 h5
  · intro tok h hu
    rcases hu with hu | hu
    · exact handleCommand_get_missing items command tok h hu
    · exact handleCommand_search_missing items command tok h hu
  · intro tok a rest h
    exact ⟨fun hu => handleCommand_get_arg items command tok a rest h hu,
      fun hu => handleCommand_search_arg items command tok a rest h hu⟩

/-- C4 witness. -/
theorem c4_witness :
    handleCommand initialItems "FROB x" = helpText ∧
    handleCommand initialItems "GET" = helpText ∧
    handleCommand initialItems "get 1 2" = getResponse initialItems "1" := by
  refine ⟨?_, ?_, ?_⟩
  · exact (c4_parse_total initialItems "FROB x").2.2.2.1 "FROB" ["x"] (by decide)
      (by decide) (by decide) (by decide) (by decide) (by decide)
  · exact (c4_parse_total initialItems "GET").2.2.2.2.1 "GET" (by decide)
      (Or.inl (by decide))
  · exact ((c4_parse_total initialItems "get 1 2").2.2.2.2.2 "get" "1" ["2"]
      (by decide)).1 (by decide)

/-- C5: the Categories response is the header line followed by one
`"- <category>"` line per distinct category; the emitted category list has
no duplicates and holds exactly the categories occurring among the items. -/
theorem c5_categories (items : Catalog) :
    categoriesResponse (catalogValues items) =
      "Available categories:\n" ++
        String.join ((categorySet (catalogValues items)).map
          (fun cat => "- " ++ cat ++ "\n")) ∧
    (categorySet (catalogValues items)).Nodup ∧
    (∀ cat, cat ∈ categorySet (catalogValues items) ↔
      ∃ it, it ∈ catalogValues items ∧ it.category = cat) := by
  refine ⟨rfl, List.nodup_dedup _, fun cat => ?_⟩
  simp [categorySet, List.mem_dedup, List.mem_map]

/-- C5 witness. -/
theorem c5_witness : (categorySet (catalogValues initialItems)).Nodup :=
  (c5_categories initialItems).2.1

/-- C6: dispatching any command (HEAD, LIST, GET, SEARCH, CATEGORIES or
invalid text) leaves the catalog unchanged — the dispatcher only reads it. -/
theorem c6_no_mutation (items : Catalog) (command : String) :
    (handleCommandS items command).1 = items :=
  handleCommandS_fst items command

/-- C7: after all stress workers complete, whatever each request's outcome
was, the sent counter equals the sum of the succeeded and failed
counters. -/
theorem c7_sent_eq_succeeded_add_failed (workerOutcomes : List (List RequestOutcome)) :
    (runHarness workerOutcomes).requests_sent =
      (runHarness workerOutcomes).requests_succeeded +
        (runHarness workerOutcomes).requests_failed := by
  unfold runHarness
  rw [foldl_runWorker_sent, foldl_runWorker_sf]
  simp [initialStats]

/-- C8: with concurrency N > 0, each of the N workers issues exactly
`T / N` requests (integer division), so the final sent counter is
`N * (T / N)`; the remainder `T mod N` requests are dropped —
`N * (T / N) + T % N = T`. -/
theorem c8_partition (n t : Nat) (workerOutcomes : List (List RequestOutcome))
    (_hn : 0 < n) (hlen : workerOutcomes.length = n)
    (hshare : ∀ l ∈ workerOutcomes, l.length = requestsPerWorker t n) :
    (runHarness workerOutcomes).requests_sent = n * (t / n) ∧
      n * (t / n) + t % n = t := by
  constructor
  · have hrep : workerOutcomes.map List.length = List.replicate n (t / n) := by
      apply List.eq_replicate_iff.mpr
      refine ⟨by simpa using hlen, ?_⟩
      intro x hx
      obtain ⟨l, hl, hxl⟩ := List.mem_map.mp hx
      rw [← hxl]
      simpa [requestsPerWorker] using hshare l hl
    unfold runHarness
    rw [foldl_runWorker_sent, hrep]
    simp [initialStats, List.sum_replicate, smul_eq_mul]
  · exact Nat.div_add_mod t n

/-- C8 witness: three workers of a (3, 10) run each issue 10 / 3 = 3
requests; 9 are sent and the remaining 1 is dropped. -/
theorem c8_witness :
    (runHarness [[RequestOutcome.connectFailed, RequestOutcome.connectFailed,
        RequestOutcome.connectFailed],
      [RequestOutcome.connectFailed, RequestOutcome.connectFailed,
        RequestOutcome.connectFailed],
      [RequestOutcome.connectFailed, RequestOutcome.connectFailed,
        RequestOutcome.connectFailed]]).requests_sent = 3 * (10 / 3) ∧
      3 * (10 / 3) + 10 % 3 = 10 :=
  c8_partition 3 10 _ (by decide) (by decide) (by decide)

end NymBazaar

namespace NymBazaar

/-- C9 (counterexample): the reply " OK " is classified as a success even
though it is not equal — by exact string comparison — to "OK" (the literal
the code compares against) nor to "OK\n" (the acknowledgment the server
sends): the worker compares the trimmed reply, not the reply itself. -/
theorem c9_counterexample :
    (recordRequest initialStats (RequestOutcome.replied " OK " 7)).requests_succeeded = 1 ∧
    (" OK " : String) ≠ "OK" ∧ (" OK " : String) ≠ "OK\n" := by
  refine ⟨?_, ?_, ?_⟩ <;> decide

/-- C9 (amended): a request is classified as a success exactly when a reply
was received whose whitespace-trimmed text equals the expected
acknowledgment "OK", and the open-to-reply latency is added to
total_time_ns exactly for such requests — never for failures. -/
theorem c9_latency_on_success (stats : Stats) (o : RequestOutcome) :
    ((recordRequest stats o).requests_succeeded = stats.requests_succeeded + 1 ↔
      ∃ response elapsedNs, o = RequestOutcome.replied response elapsedNs ∧
        strTrim response = "OK") ∧
    (∀ response elapsedNs, o = RequestOutcome.replied response elapsedNs →
      (strTrim response = "OK" →
        (recordRequest stats o).total_time_ns = stats.total_time_ns + elapsedNs) ∧
      (strTrim response ≠ "OK" →
        (recordRequest stats o).total_time_ns = stats.total_time_ns)) ∧
    ((∀ response elapsedNs, o ≠ RequestOutcome.replied response elapsedNs) →
      (recordRequest stats o).total_time_ns = stats.total_time_ns) := by
  cases o with
  | connectFailed =>
      refine ⟨?_, ?_, ?_⟩
      · constructor
        · intro h
          exact absurd h (by simp [recordRequest])
        · rintro ⟨r, n, h, -⟩
          cases h
      · rintro r n h
        cases h
      · intro _
        rfl
  | writeFailed =>
      refine ⟨?_, ?_, ?_⟩
      · constructor
        · intro h
          exact absurd h (by simp [recordRequest])
        · rintro ⟨r, n, h, -⟩
          cases h
      · rintro r n h
        cases h
      · intro _
        rfl
  | readFailedOrEmpty =>
      refine ⟨?_, ?_, ?_⟩
      · constructor
        · intro h
          exact absurd h (by simp [recordRequest])
        · rintro ⟨r, n, h, -⟩
          cases h
      · rintro r n h
        cases h
      · intro _
        rfl
  | replied response elapsedNs =>
      by_cases hc : strTrim response = "OK"
      · have hcl : classifySuccess response = true := by
          simp [classifySuccess, hc]
        refine ⟨?_, ?_, ?_⟩
        · constructor
          · intro _
            exact ⟨response, elapsedNs, rfl, hc⟩
          · intro _
            simp [recordRequest, hcl]
        · intro r n h
          injection h with hr hn
          subst hr; subst hn
          refine ⟨fun _ => ?_, fun hne => absurd hc hne⟩
          simp [recordRequest, hcl]
        · intro hno
          exact absurd rfl (hno response elapsedNs)
      · have hcl : classifySuccess response = false := by
          simp [classifySuccess, hc]
        refine ⟨?_, ?_, ?_⟩
        · constructor
          · intro h
            exact absurd h (by simp [recordRequest, hcl])
          · rintro ⟨r, n, h, hok⟩
            injection h with hr hn
            subst hr
            exact absurd hok hc
        · intro r n h
          injection h with hr hn
          subst hr; subst hn
          refine ⟨fun hok => absurd hok hc, fun _ => ?_⟩
          simp [recordRequest, hcl]
        · intro hno
          exact absurd rfl (hno response elapsedNs)

/-- C9 witness. -/
theorem c9_witness :
    (recordRequest initialStats (RequestOutcome.replied "OK\n" 5)).total_time_ns =
      initialStats.total_time_ns + 5 :=
  ((c9_latency_on_success initialStats (RequestOutcome.replied "OK\n" 5)).2.1
    "OK\n" 5 rfl).1 (by decide)

/-- C10: in the catalog built at startup every item is stored under its own
id; hence a successful Get answers a record opening with the requested id
("ID: <id>"), every listing line opens with the key the item is stored
under, and no command ever changes this catalog. -/
theorem c10_startup_ids :
    (∀ k it, catalogGet initialItems k = some it → it.id = k) ∧
    (∀ k it, catalogGet initialItems k = some it →
      charsStartWith (getResponse initialItems k).data ("ID: " ++ k).data = true) ∧
    (∀ e, e ∈ initialItems → charsStartWith (itemLine e.2).data (e.1 ++ ". ").data = true) ∧
    (∀ command, (handleCommandS initialItems command).1 = initialItems) := by
  have hlook : ∀ k it, catalogGet initialItems k = some it → it.id = k := by
    intro k it h
    by_cases h1 : k = "1"
    · subst h1
      have hh : catalogGet initialItems "1" = some nesItem := by decide
      rw [hh] at h
      injection h with h2
      rw [← h2]
      rfl
    · by_cases h2 : k = "2"
      · subst h2
        have hh : catalogGet initialItems "2" = some dx7Item := by decide
        rw [hh] at h
        injection h with h3
        rw [← h3]
        rfl
      · have hb1 : (("1" : String) == k) = false :=
          beq_eq_false_iff_ne.mpr (fun hx => h1 hx.symm)
        have hb2 : (("2" : String) == k) = false :=
          beq_eq_false_iff_ne.mpr (fun hx => h2 hx.symm)
        have hh : catalogGet initialItems k = none := by
          simp [catalogGet, initialItems, List.find?, hb1, hb2]
        rw [hh] at h
        cases h
  refine ⟨hlook, ?_, by decide, fun command => handleCommandS_fst initialItems command⟩
  intro k it h
  have hid : it.id = k := hlook k it h
  have hresp : getResponse initialItems k =
      "ID: " ++ it.id ++ "\nName: " ++ it.name ++ "\nCategory: " ++
        it.category ++ "\nPrice: " ++ it.price ++ "\nSeller: " ++
        it.seller ++ "\n\n" ++ it.description ++ "\n" := by
    unfold getResponse
    rw [h]
  apply charsStartWith_of_split _ ("ID: " ++ k)
    ("\nName: " ++ it.name ++ "\nCategory: " ++ it.category ++ "\nPrice: " ++
      it.price ++ "\nSeller: " ++ it.seller ++ "\n\n" ++ it.description ++ "\n")
  rw [hresp, hid]
  apply strExt
  simp [strData_append, List.append_assoc]

/-- C10 witness. -/
theorem c10_witness :
    nesItem.id = "1" ∧
    charsStartWith (getResponse initialItems "2").data ("ID: " ++ "2").data = true :=
  ⟨c10_startup_ids.1 "1" nesItem (by decide),
   c10_startup_ids.2.1 "2" dx7Item (by decide)⟩

end NymBazaar
